import Mathlib

/-!
Verification of the threadrunner repository: a shallow embedding of the
framing codec, the wire schema, the dummy and llama inference backends, the
daemon's per-connection handler, and the client's error mapping, each
translated from the Rust source, together with theorems settling the
spec claims about them.

Conventions of the embedding:
* Rust byte buffers (`Vec<u8>`) are `List Nat`, each element < 256 where it
  matters; the `as u32` cast is an explicit `% 2^32`.
* Rust strings are Lean `String`s; character-level work happens on
  `String.toList`.
* Fallible Rust functions (`Result`/`anyhow::Result`) return `Except`.
* The async plane is sequentialized: one connection's handler is a pure
  function from the parsed request (or its parse error) to the list of
  frames the daemon writes on that connection.
-/

/-! ## Framing codec — `crates/cli/src/frame.rs` -/

/-- Little-endian byte decomposition of a `u32` value, as produced by Rust's
`u32::to_le_bytes` in `write_frame`. -/
def u32_to_le_bytes (n : Nat) : List Nat :=
  [n % 256, n / 256 % 256, n / 2 ^ 16 % 256, n / 2 ^ 24 % 256]

/-- Little-endian reassembly of four bytes into a `u32` value, as done by
`u32::from_le_bytes` in `read_frame`. -/
def le_bytes_to_u32 (b0 b1 b2 b3 : Nat) : Nat :=
  b0 + 256 * b1 + 2 ^ 16 * b2 + 2 ^ 24 * b3

/-- Embedding of `write_frame` (crates/cli/src/frame.rs): emit the 4-byte
little-endian length prefix (`bytes.len() as u32`, hence the `% 2^32`)
followed by the payload bytes. -/
def write_frame (bytes : List Nat) : List Nat :=
  u32_to_le_bytes (bytes.length % 2 ^ 32) ++ bytes

/-- Embedding of `read_frame` (crates/cli/src/frame.rs): read four prefix
bytes, decode the little-endian length, then read exactly that many payload
bytes.  A short read (`read_exact` hitting end of stream) is an I/O error,
modelled as `Except.error ()`.  On success the decoded payload is returned
together with the unconsumed rest of the stream. -/
def read_frame : List Nat → Except Unit (List Nat × List Nat)
  | b0 :: b1 :: b2 :: b3 :: rest =>
      let length := le_bytes_to_u32 b0 b1 b2 b3
      if length ≤ rest.length then .ok (rest.take length, rest.drop length)
      else .error ()
  | _ => .error ()

/-! ## Wire schema — `crates/core/src/ipc.rs` -/

/-- Embedding of `ipc::PromptRequest`: protocol version, prompt text,
stream flag. -/
structure PromptRequest where
  v : Nat
  prompt : String
  stream : Bool
deriving DecidableEq

/-- Embedding of `ipc::TokenResponse`: optional token plus end-of-stream
flag. -/
structure TokenResponse where
  token : Option String
  eos : Bool
deriving DecidableEq

/-- Embedding of `ipc::ErrorResponse`: message plus error-kind tag. -/
structure ErrorResponse where
  error : String
  error_type : String
deriving DecidableEq

/-- One JSON payload written by the daemon on a connection: either a token
response or an error response.  A receiver distinguishes the two by
structural inspection, which the sum type models. -/
inductive WireFrame where
  | token (t : TokenResponse)
  | error (e : ErrorResponse)
deriving DecidableEq

/-- Predicate (Boolean) for `WireFrame.error`. -/
def WireFrame.isError : WireFrame → Bool
  | .token _ => false
  | .error _ => true

/-! ## String helpers mirroring the Rust standard library -/

/-- Accumulator-style splitter: `split_ws_aux cur cs` walks `cs`, building
the current word in reversed order in `cur`, emitting a word at each
whitespace run boundary.  This is the semantics of Rust's
`str::split_whitespace`: words are maximal runs of non-whitespace, empty
pieces are never produced. -/
def split_ws_aux (cur : List Char) : List Char → List (List Char)
  | [] => if cur.isEmpty then [] else [cur.reverse]
  | c :: rest =>
    if c.isWhitespace then
      if cur.isEmpty then split_ws_aux [] rest
      else cur.reverse :: split_ws_aux [] rest
    else split_ws_aux (c :: cur) rest

/-- Embedding of Rust's `str::split_whitespace` collected into a list. -/
def split_whitespace (s : String) : List String :=
  (split_ws_aux [] s.toList).map String.mk

/-- Substring test on character lists: does the haystack contain the needle
as a contiguous infix? -/
def containsSubstr (nd : List Char) : List Char → Bool
  | [] => nd.isEmpty
  | c :: t => nd.isPrefixOf (c :: t) || containsSubstr nd t

/-- Embedding of Rust's `str::contains(pattern)` for string patterns. -/
def strContains (hay nd : String) : Bool :=
  containsSubstr nd.toList hay.toList

/-! ## Dummy backend — `crates/core/src/model.rs` (`DummyBackend`) -/

/-- The seed token list hard-coded in `DummyBackend::load`. -/
def lorem_words : List String :=
  ["lorem", "ipsum", "dolor", "sit", "amet", "consectetur", "adipiscing", "elit",
   "sed", "do", "eiusmod", "tempor", "incididunt", "ut", "labore", "et", "dolore",
   "magna", "aliqua", "enim", "ad", "minim", "veniam", "quis", "nostrud"]

/-- Embedding of `DummyBackend`: its whole state is the `VecDeque<String>`
of pending tokens, modelled as a list whose head is the queue front. -/
structure DummyBackend where
  tokens : List String
deriving DecidableEq

/-- Embedding of `DummyBackend::load`: the model path is ignored and the
queue is seeded with the fixed lorem words.  `load` never fails. -/
def DummyBackend.load (_model_path : String) : DummyBackend :=
  ⟨lorem_words⟩

/-- Embedding of `DummyBackend::prompt`: split the text on whitespace and
append each word with a trailing period to the back of the queue. -/
def DummyBackend.promptOp (b : DummyBackend) (text : String) : DummyBackend :=
  ⟨b.tokens ++ (split_whitespace text).map (fun w => w ++ ".")⟩

/-- Embedding of `DummyBackend::next_token`: pop the queue front; an empty
queue yields `none`.  The call is infallible, so the `Result` wrapper is
dropped. -/
def DummyBackend.next_token : DummyBackend → Option String × DummyBackend
  | ⟨[]⟩ => (none, ⟨[]⟩)
  | ⟨t :: rest⟩ => (some t, ⟨rest⟩)

/-- Embedding of `DummyBackend::unload`: clear the queue. -/
def DummyBackend.unloadOp (_b : DummyBackend) : DummyBackend :=
  ⟨[]⟩

/-! ## Daemon streaming loop — `crates/daemon/src/daemon.rs` -/

/-- One generic token-producing step: a backend state transformer returning
the next token (with `none` meaning end of generation), exactly the shape of
`ModelBackend::next_token` on an infallible backend. -/
abbrev TokenStep (σ : Type) := σ → Option String × σ

/-- Successive `next_token` results of a backend until the first `none`,
with fuel bounding the number of calls; `none` overall means the drain did
not finish within the fuel. -/
def drainTokens {σ : Type} (step : TokenStep σ) : Nat → σ → Option (List String)
  | 0, _ => none
  | n + 1, s =>
    match step s with
    | (none, _) => some []
    | (some t, s') => (drainTokens step n s').map (fun l => t :: l)

/-- Embedding of the streaming loop of `handle_client_inner`
(crates/daemon/src/daemon.rs): repeatedly call `next_token`, build a
`TokenResponse` whose `eos` is `tok.is_none()`, write it, and stop after the
`eos = true` frame.  Fuel bounds the number of iterations; `none` means the
loop did not complete within the fuel. -/
def streamLoop {σ : Type} (step : TokenStep σ) : Nat → σ → Option (List TokenResponse)
  | 0, _ => none
  | n + 1, s =>
    match step s with
    | (none, _) => some [⟨none, true⟩]
    | (some t, s') => (streamLoop step n s').map (fun l => ⟨some t, false⟩ :: l)

/-- Embedding of the error classification in `send_error_response`
(crates/daemon/src/daemon.rs): the kind tag is chosen by substring tests on
the error's display message. -/
def classify_error (msg : String) : String :=
  if strContains msg "model" || strContains msg "Model" then "ModelLoad"
  else if strContains msg "protocol" || strContains msg "Protocol" then "Protocol"
  else if strContains msg "timeout" || strContains msg "Timeout" then "Timeout"
  else if strContains msg "io" || strContains msg "I/O" then "Io"
  else "Unknown"

/-- Embedding of `send_error_response`: the single best-effort error frame
carries the error's message and its classified kind. -/
def send_error_response (msg : String) : ErrorResponse :=
  ⟨msg, classify_error msg⟩

/-- Embedding of `handle_client` / `handle_client_inner`
(crates/daemon/src/daemon.rs) for a fresh daemon running the dummy backend
(`state.model` empty, `THREADRUNNER_BACKEND=dummy`, so the model loads from
`/dev/null`).  The input is the result of `serde_json::from_slice` on the
request frame's payload: on a parse error the handler aborts and
`handle_client` writes the one classified error frame; on success the
handler — without any inspection of the request's `v` field, which the
source never reads — loads the dummy backend, submits the prompt, and runs
the streaming loop.  The result is the list of frames written on the
connection, `none` if the stream loop exceeds its fuel. -/
def handle_client (parsed : Except String PromptRequest) (fuel : Nat) :
    Option (List WireFrame) :=
  match parsed with
  | .error e => some [WireFrame.error (send_error_response e)]
  | .ok req =>
      (streamLoop DummyBackend.next_token fuel
        ((DummyBackend.load "/dev/null").promptOp req.prompt)).map
        (fun l => l.map WireFrame.token)

/-! ## Client error taxonomy and exit codes —
`crates/core/src/error.rs`, `crates/cli/src/main.rs`,
`crates/cli/src/client.rs` -/

/-- Embedding of `threadrunner_core::error::Error`.  The payload strings
are the display messages of the wrapped errors. -/
inductive CliError where
  | modelLoad (msg : String)
  | io (msg : String)
  | protocol (msg : String)
  | timeout
  | unknown
deriving DecidableEq

/-- Embedding of the `error_type` → `Error` mapping in `send_prompt`
(crates/cli/src/client.rs): `ModelLoad`, `Io` and `Timeout` map to their
variants; every other tag (including `Protocol` and `Unknown`) falls to the
catch-all `Error::Protocol` arm. -/
def error_type_to_cli_error (er : ErrorResponse) : CliError :=
  if er.error_type = "ModelLoad" then .modelLoad er.error
  else if er.error_type = "Io" then .io er.error
  else if er.error_type = "Timeout" then .timeout
  else .protocol ("Daemon error: " ++ er.error)

/-- Embedding of the exit-code selection in `main`
(crates/cli/src/main.rs): `Ok` exits 0, `Error::Io` exits 2,
`Error::ModelLoad` exits 3, `Error::Timeout` exits 4, everything else
exits 1. -/
def exit_code : Except CliError Unit → Nat
  | .ok _ => 0
  | .error (.io _) => 2
  | .error (.modelLoad _) => 3
  | .error .timeout => 4
  | .error _ => 1

/-- Number of diagnostic lines `main` (crates/cli/src/main.rs) prints on
stderr for each outcome: the `Io` arm and the catch-all arm each
`eprintln!` one line; the `ModelLoad` and `Timeout` arms print nothing
before exiting. -/
def stderr_lines : Except CliError Unit → Nat
  | .ok _ => 0
  | .error (.io _) => 1
  | .error (.modelLoad _) => 0
  | .error .timeout => 0
  | .error _ => 1

/-- Embedding of `BackendKind` (crates/core/src/model.rs) with both
compiled-in backends enabled. -/
inductive BackendKind where
  | dummy
  | llama
deriving DecidableEq

/-- Embedding of `available_backends` (crates/cli/src/main.rs) with both
features enabled. -/
def available_backends : List String := ["dummy", "llama"]

/-- Embedding of `parse_backend` (crates/cli/src/main.rs): known names map
to their kind; any other value computes `available_backends` into an unused
binding and returns `Error::Unknown`. -/
def parse_backend (backend : String) : Except CliError BackendKind :=
  if backend = "dummy" then .ok .dummy
  else if backend = "llama" then .ok .llama
  else .error .unknown

/-- Display message of a `CliError`, per the `thiserror` attributes in
crates/core/src/error.rs. -/
def CliError.display : CliError → String
  | .modelLoad m => "model load failed: " ++ m
  | .io m => "io error: " ++ m
  | .protocol m => "socket protocol error: " ++ m
  | .timeout => "timeout"
  | .unknown => "unknown"

/-- The single stderr line (`eprintln!("Error: {}", err)`) and the exit
code produced by `main` (crates/cli/src/main.rs) when `parse_backend`
rejects the `--backend` value; `none` when parsing succeeds and no
diagnostic is printed at this stage. -/
def backend_arg_outcome (backend : String) : Option (String × Nat) :=
  match parse_backend backend with
  | .ok _ => none
  | .error e => some ("Error: " ++ e.display, 1)

/-! ## Client connect-or-spawn — `crates/cli/src/client.rs`,
`crates/cli/src/config.rs` -/

/-- Outcome kinds of one `UnixStream::connect` attempt, as inspected by
`connect_or_spawn` via `io::ErrorKind`. -/
inductive ConnectResult where
  | ok
  | errNotFound
  | errConnectionRefused
  | errOther (kind : String)
deriving DecidableEq

/-- Overall outcome of the connect phase.  `connected k` records which
attempt succeeded: `0` for the initial attempt, `k + 1` for the `k`-th
retry. -/
inductive ConnectOutcome where
  | connected (attempt : Nat)
  | ioError
  | timeout
deriving DecidableEq

/-- Milliseconds slept between retries (`sleep(Duration::from_millis(100))`
in crates/cli/src/client.rs). -/
def retry_sleep_ms : Nat := 100

/-- The connect deadline in milliseconds (`Duration::from_secs(5)` in
crates/cli/src/client.rs). -/
def connect_timeout_ms : Nat := 5000

/-- Embedding of the retry loop of `connect_or_spawn`
(crates/cli/src/client.rs).  `retry` gives the outcome of the `k`-th retry
attempt.  Each iteration first checks the deadline (`start_time.elapsed()
>= timeout`), then sleeps 100 ms and attempts; connect attempts themselves
are idealized as instantaneous, so the elapsed time at the `k`-th check is
`100 * k` ms.  `NotFound` and `ConnectionRefused` keep retrying, success
returns the stream, any other error kind is surfaced as `Io`. -/
def retry_loop (retry : Nat → ConnectResult) (k : Nat) : ConnectOutcome :=
  if _h : retry_sleep_ms * k ≥ connect_timeout_ms then .timeout
  else
    match retry k with
    | .ok => .connected (k + 1)
    | .errNotFound => retry_loop retry (k + 1)
    | .errConnectionRefused => retry_loop retry (k + 1)
    | .errOther _ => .ioError
termination_by connect_timeout_ms - retry_sleep_ms * k
decreasing_by
  simp only [retry_sleep_ms, connect_timeout_ms] at *
  omega

/-- Embedding of `connect_or_spawn` (crates/cli/src/client.rs): the first
connect attempt is made without spawning; on success the stream is
returned; on `NotFound` or `ConnectionRefused` the daemon is spawned
(second component `true`) and the retry loop runs; any other error kind is
returned immediately as `Io` without spawning. -/
def connect_or_spawn (first : ConnectResult) (retry : Nat → ConnectResult) :
    ConnectOutcome × Bool :=
  match first with
  | .ok => (.connected 0, false)
  | .errNotFound => (retry_loop retry 0, true)
  | .errConnectionRefused => (retry_loop retry 0, true)
  | .errOther _ => (.ioError, false)

/-- Embedding of `daemon_exe` (crates/cli/src/config.rs), with a filesystem
path modelled as its list of segments: take the parent directory of the
current executable (failing when there is none) and join the fixed daemon
binary name. -/
def daemon_exe (current_exe : List String) : Except Unit (List String) :=
  if current_exe.isEmpty then .error ()
  else .ok (current_exe.dropLast ++ ["threadrunner-daemon"])

/-! ## Llama backend channel discipline —
`crates/core/src/llama_backend.rs` -/

/-- Snapshot of the token channel owned by `LlamaBackend`: the messages the
worker has sent but the reader has not yet received (front of list first),
and whether the channel is closed (the worker's sender dropped because the
worker thread exited). -/
structure LlamaChan where
  pending : List (Option String)
  closed : Bool
deriving DecidableEq

/-- Reader-side state of `LlamaBackend` relevant to `next_token`: the
`token_receiver` slot, `none` once `stop_generation` has cleared it. -/
structure LlamaGen where
  receiver : Option LlamaChan
deriving DecidableEq

/-- Embedding of `LlamaBackend::next_token`
(crates/core/src/llama_backend.rs).  With no receiver installed it returns
`Ok(None)`.  Otherwise it blocks on `recv()`: the next pending message is
returned in order; an empty closed channel gives `RecvError`, upon which
the code runs `stop_generation` (clearing the receiver) and returns
`Ok(None)`; an empty open channel blocks until the worker sends more,
modelled as the outer `none`. -/
def LlamaGen.next_token : LlamaGen → Option (Option String × LlamaGen)
  | ⟨none⟩ => some (none, ⟨none⟩)
  | ⟨some ⟨m :: rest, closed⟩⟩ => some (m, ⟨some ⟨rest, closed⟩⟩)
  | ⟨some ⟨[], closed⟩⟩ =>
      if closed then some (none, ⟨none⟩) else none

/-- The full message sequence the worker thread sends over the token
channel for a generation that produces `chunks` and is never stopped: each
chunk wrapped in `Some`, then the terminal `None` marker, after which the
worker exits (closing the channel). -/
def worker_messages (chunks : List String) : List (Option String) :=
  chunks.map some ++ [none]

/-- Channel states reachable while reading an unstopped llama generation:
either the receiver has been cleared, or the pending messages are a
contiguous slice of `worker_messages chunks` — the worker has sent the
first `j` messages, the reader has consumed the first `k` — and the channel
is closed exactly when the worker has sent everything (it exits right after
sending the terminal `None`). -/
def llamaInv (g : LlamaGen) : Prop :=
  g.receiver = none ∨
    ∃ chunks j k, k ≤ j ∧ j ≤ chunks.length + 1 ∧
      g.receiver =
        some ⟨((worker_messages chunks).take j).drop k, decide (j = chunks.length + 1)⟩

/-- Terminal reader states: the receiver is gone, or only the closed empty
channel remains.  From such a state every `next_token` call returns
`Ok(None)`. -/
def llamaTerminal (g : LlamaGen) : Prop :=
  g.receiver = none ∨ g.receiver = some ⟨[], true⟩

/-! ## BoxedModelBackend — `crates/core/src/model.rs` -/

/-- The operations of an inner `Box<dyn ModelBackend>`, abstracted over its
state type: each returns the successor state or an error message. -/
structure InnerOps (σ : Type) where
  promptOp : σ → String → Except String σ
  next_tokenOp : σ → Except String (Option String × σ)
  unloadOp : σ → Except String σ

/-- Calls a `BoxedModelBackend` makes into its inner backend; traces of
these record whether and how often the inner backend is invoked. -/
inductive InnerCall where
  | promptCall (text : String)
  | next_tokenCall
  | unloadCall
deriving DecidableEq

/-- Embedding of `BoxedModelBackend` (crates/core/src/model.rs): an
optional inner backend, `none` after a successful explicit unload. -/
structure BoxedModelBackend (σ : Type) where
  inner : Option σ

/-- Embedding of `BoxedModelBackend::prompt`: delegate when the slot is
full, otherwise fail with the fixed message without touching any backend.
The trace lists the inner calls made. -/
def BoxedModelBackend.promptB {σ : Type} (ops : InnerOps σ)
    (b : BoxedModelBackend σ) (text : String) :
    Except String Unit × BoxedModelBackend σ × List InnerCall :=
  match b.inner with
  | some s =>
      match ops.promptOp s text with
      | .ok s' => (.ok (), ⟨some s'⟩, [.promptCall text])
      | .error e => (.error e, ⟨some s⟩, [.promptCall text])
  | none => (.error "Backend has been unloaded", b, [])

/-- Embedding of `BoxedModelBackend::next_token`: delegate when the slot is
full, otherwise fail with the fixed message without touching any backend. -/
def BoxedModelBackend.next_tokenB {σ : Type} (ops : InnerOps σ)
    (b : BoxedModelBackend σ) :
    Except String (Option String) × BoxedModelBackend σ × List InnerCall :=
  match b.inner with
  | some s =>
      match ops.next_tokenOp s with
      | .ok (t, s') => (.ok t, ⟨some s'⟩, [.next_tokenCall])
      | .error e => (.error e, ⟨some s⟩, [.next_tokenCall])
  | none => (.error "Backend has been unloaded", b, [])

/-- Embedding of `BoxedModelBackend::unload`: with a full slot, call the
inner unload and on success clear the slot (`self.inner = None`); the `?`
operator propagates an inner failure before the slot is cleared.  With an
empty slot, return `Ok(())` immediately — the trace shows no inner call. -/
def BoxedModelBackend.unloadB {σ : Type} (ops : InnerOps σ)
    (b : BoxedModelBackend σ) :
    Except String Unit × BoxedModelBackend σ × List InnerCall :=
  match b.inner with
  | some s =>
      match ops.unloadOp s with
      | .ok _ => (.ok (), ⟨none⟩, [.unloadCall])
      | .error e => (.error e, ⟨some s⟩, [.unloadCall])
  | none => (.ok (), b, [])

/-- Embedding of `Drop for BoxedModelBackend`: if the slot is still full,
call the inner unload once, ignoring its result; the trace of inner calls
is returned. -/
def BoxedModelBackend.dropB {σ : Type} (b : BoxedModelBackend σ) :
    List InnerCall :=
  match b.inner with
  | some _ => [.unloadCall]
  | none => []

/-! ## Theorems -/

/-- Decoding the four little-endian bytes of a `u32` value recovers the
value. -/
theorem le_bytes_decode_encode (n : Nat) (h : n < 2 ^ 32) :
    le_bytes_to_u32 (n % 256) (n / 256 % 256) (n / 2 ^ 16 % 256) (n / 2 ^ 24 % 256) = n := by
  unfold le_bytes_to_u32
  omega

/-- C5: for every payload of length at most `2^32 - 1` bytes, encoding with
`write_frame` (4-byte little-endian length `N` then exactly `N` payload
bytes) and decoding with `read_frame` returns the original payload
bit-exactly with the rest of the stream untouched, and both the decoded
length and the payload length equal the value carried by the length
prefix. -/
theorem frame_roundtrip (payload rest : List Nat)
    (h : payload.length ≤ 2 ^ 32 - 1) :
    read_frame (write_frame payload ++ rest) = .ok (payload, rest) ∧
    (∀ b0 b1 b2 b3 body, write_frame payload = b0 :: b1 :: b2 :: b3 :: body →
      le_bytes_to_u32 b0 b1 b2 b3 = payload.length ∧ body = payload) := by
  have hlt : payload.length < 2 ^ 32 := by omega
  have hmod : payload.length % 2 ^ 32 = payload.length := Nat.mod_eq_of_lt hlt
  have hdec : le_bytes_to_u32 (payload.length % 256) (payload.length / 256 % 256)
      (payload.length / 2 ^ 16 % 256) (payload.length / 2 ^ 24 % 256) = payload.length :=
    le_bytes_decode_encode _ hlt
  constructor
  · show read_frame (u32_to_le_bytes (payload.length % 2 ^ 32) ++ payload ++ rest) = _
    rw [hmod]
    unfold u32_to_le_bytes
    show read_frame (_ :: _ :: _ :: _ :: (payload ++ rest)) = _
    unfold read_frame
    simp only [hdec]
    have hle : payload.length ≤ (payload ++ rest).length := by
      simp
    rw [if_pos hle]
    rw [List.take_left, List.drop_left]
  · intro b0 b1 b2 b3 body hw
    unfold write_frame u32_to_le_bytes at hw
    rw [hmod] at hw
    simp only [List.cons_append, List.nil_append, List.cons.injEq] at hw
    obtain ⟨h0, h1, h2, h3, hbody⟩ := hw
    subst h0; subst h1; subst h2; subst h3
    exact ⟨hdec, hbody.symm⟩

/-- C5 witness: the round-trip at the concrete payload `[7, 8]` with
trailing stream `[9]`. -/
theorem frame_roundtrip_witness :
    read_frame (write_frame [7, 8] ++ [9]) = .ok ([7, 8], [9]) ∧
    (∀ b0 b1 b2 b3 body, write_frame [7, 8] = b0 :: b1 :: b2 :: b3 :: body →
      le_bytes_to_u32 b0 b1 b2 b3 = [7, 8].length ∧ body = [7, 8]) :=
  frame_roundtrip [7, 8] [9] (by norm_num)

/-- The stream loop and the drain agree: whenever the streaming loop of
`handle_client_inner` completes within its fuel, the frames it writes are
precisely one `eos = false` frame per drained token, in drain order,
followed by the single terminal `eos = true` frame. -/
theorem streamLoop_eq_drain {σ : Type} (step : TokenStep σ) :
    ∀ (n : Nat) (s : σ) (frames : List TokenResponse),
      streamLoop step n s = some frames →
      ∃ toks, drainTokens step n s = some toks ∧
        frames = toks.map (fun t => TokenResponse.mk (some t) false) ++
          [TokenResponse.mk none true] := by
  intro n
  induction n with
  | zero => intro s frames h; simp [streamLoop] at h
  | succ n ih =>
    intro s frames h
    unfold streamLoop at h
    unfold drainTokens
    rcases hstep : step s with ⟨tok, s'⟩
    rw [hstep] at h
    rcases tok with _ | t
    · simp only at h
      obtain rfl : [TokenResponse.mk none true] = frames := Option.some.inj h
      exact ⟨[], by simp, by simp⟩
    · simp only [Option.map_eq_some'] at h
      obtain ⟨rest, hrest, rfl⟩ := h
      obtain ⟨toks, hdrain, rfl⟩ := ih s' rest hrest
      exact ⟨t :: toks, by simp [hdrain], by simp⟩

/-- C3: for every request the daemon handles to completion without error
(the streaming loop finishes within its fuel), the written sequence of
token frames ends with exactly one `eos = true` frame, every earlier frame
has `eos = false` and a present token, and the frame order equals the order
in which `next_token` produced the tokens (the drain order). -/
theorem stream_frames_spec {σ : Type} (step : TokenStep σ) (n : Nat) (s : σ)
    (frames : List TokenResponse) (h : streamLoop step n s = some frames) :
    ∃ toks, drainTokens step n s = some toks ∧
      frames = toks.map (fun t => TokenResponse.mk (some t) false) ++
        [TokenResponse.mk none true] ∧
      frames.countP (fun f => f.eos) = 1 ∧
      ∀ f ∈ frames.dropLast, f.eos = false ∧ f.token.isSome = true := by
  obtain ⟨toks, hdrain, hframes⟩ := streamLoop_eq_drain step n s frames h
  refine ⟨toks, hdrain, hframes, ?_, ?_⟩
  · subst hframes
    simp [List.countP_append, List.countP_map, Function.comp]
  · subst hframes
    rw [List.dropLast_concat]
    intro f hf
    simp only [List.mem_map] at hf
    obtain ⟨t, _, rfl⟩ := hf
    exact ⟨rfl, rfl⟩

/-- C3 witness: the loop on the dummy backend holding the single token
`"a"` completes and satisfies the invariant. -/
theorem stream_frames_spec_witness :
    ∃ toks, drainTokens DummyBackend.next_token 2 ⟨["a"]⟩ = some toks ∧
      [TokenResponse.mk (some "a") false, TokenResponse.mk none true] =
        toks.map (fun t => TokenResponse.mk (some t) false) ++
          [TokenResponse.mk none true] ∧
      List.countP (fun f => f.eos)
        [TokenResponse.mk (some "a") false, TokenResponse.mk none true] = 1 ∧
      ∀ f ∈ [TokenResponse.mk (some "a") false, TokenResponse.mk none true].dropLast,
        f.eos = false ∧ f.token.isSome = true :=
  stream_frames_spec DummyBackend.next_token 2 ⟨["a"]⟩ _ rfl

/-- C4: the dummy backend seeds a fixed ordered token sequence on `load`
(for any path), `prompt t` appends `w.` for each whitespace-separated word
`w` of `t`, `next_token` pops the queue front, `unload` clears the queue;
and concretely, `load "/dev/null"` followed by
`prompt "lorem ipsum dolor sit amet"` and draining `next_token` until the
first `none` yields exactly 30 tokens whose first three are `lorem`,
`ipsum`, `dolor` and whose last five are `lorem.`, `ipsum.`, `dolor.`,
`sit.`, `amet.`. -/
theorem dummy_backend_spec :
    (∀ p, DummyBackend.load p = ⟨lorem_words⟩) ∧
    (∀ (b : DummyBackend) (t : String), (b.promptOp t).tokens =
      b.tokens ++ (split_whitespace t).map (fun w => w ++ ".")) ∧
    (∀ t rest, DummyBackend.next_token ⟨t :: rest⟩ = (some t, ⟨rest⟩)) ∧
    DummyBackend.next_token ⟨[]⟩ = (none, ⟨[]⟩) ∧
    (∀ b : DummyBackend, b.unloadOp = ⟨[]⟩) ∧
    ∃ toks,
      drainTokens DummyBackend.next_token 31
        ((DummyBackend.load "/dev/null").promptOp "lorem ipsum dolor sit amet") =
        some toks ∧
      toks.length = 30 ∧
      toks.take 3 = ["lorem", "ipsum", "dolor"] ∧
      toks.drop 25 = ["lorem.", "ipsum.", "dolor.", "sit.", "amet."] := by
  refine ⟨fun p => rfl, fun b t => rfl, fun t rest => rfl, rfl, fun b => rfl,
    lorem_words ++ ["lorem.", "ipsum.", "dolor.", "sit.", "amet."],
    by decide, by decide, by decide, by decide⟩

/-- C1 (code evidence): `handle_client_inner` never inspects the request's
`v` field.  A parsed request with `v = 99` is handled like any other: the
daemon loads the dummy backend, streams all 26 produced tokens (25 seed
words plus `hi.`) and the terminal `eos = true` frame, and writes no error
frame at all — in particular no frame with `error_type = "Protocol"`. -/
theorem version_mismatch_streams_normally :
    handle_client (.ok ⟨99, "hi", true⟩) 40 =
      some ((lorem_words ++ ["hi."]).map
          (fun t => WireFrame.token (TokenResponse.mk (some t) false)) ++
        [WireFrame.token (TokenResponse.mk none true)]) ∧
    ((lorem_words ++ ["hi."]).map
          (fun t => WireFrame.token (TokenResponse.mk (some t) false)) ++
        [WireFrame.token (TokenResponse.mk none true)]).all
      (fun f => !f.isError) = true := by
  exact ⟨by decide, by decide⟩

/-- C2 (code evidence): when the request frame's payload fails to parse as
a `PromptRequest`, `handle_client` writes the single best-effort error
frame, but the substring-based classification in `send_error_response`
finds none of its keywords in a JSON parse error message (here serde_json's
message for a payload that is not JSON), so the frame's `error_type` is
`"Unknown"`, not `"Protocol"`. -/
theorem malformed_json_error_type :
    handle_client (.error "expected value at line 1 column 1") 0 =
      some [WireFrame.error
        ⟨"expected value at line 1 column 1", "Unknown"⟩] ∧
    (classify_error "expected value at line 1 column 1" == "Protocol") = false := by
  exact ⟨by decide, by decide⟩

/-- C7 counterexample: the claim "on every non-zero exit the client prints
a single diagnostic line on stderr" is false — a `ModelLoad` error response
makes `main` exit with code 3 while printing nothing on stderr. -/
theorem exit_without_diagnostic :
    exit_code (.error (.modelLoad "boom")) = 3 ∧
    stderr_lines (.error (.modelLoad "boom")) = 0 ∧
    (exit_code (.error (.modelLoad "boom")) == 0) = false ∧
    (stderr_lines (.error (.modelLoad "boom")) == 1) = false := by
  exact ⟨rfl, rfl, by decide, by decide⟩

/-- C7 amended: the client exits 0 on a successfully completed stream, and
on an error response it exits with the code determined by the frame's
`error_type` — `ModelLoad` gives 3, `Io` gives 2, `Timeout` gives 4, any
other tag (including `Protocol` and `Unknown`) gives 1; a single diagnostic
line is printed on stderr for exits 1 and 2, while exits 3 and 4 print no
diagnostic. -/
theorem client_exit_codes (er : ErrorResponse) :
    exit_code (.ok ()) = 0 ∧ stderr_lines (.ok ()) = 0 ∧
    exit_code (.error (error_type_to_cli_error er)) =
      (if er.error_type = "ModelLoad" then 3
       else if er.error_type = "Io" then 2
       else if er.error_type = "Timeout" then 4 else 1) ∧
    stderr_lines (.error (error_type_to_cli_error er)) =
      (if er.error_type = "ModelLoad" then 0
       else if er.error_type = "Io" then 1
       else if er.error_type = "Timeout" then 0 else 1) := by
  refine ⟨rfl, rfl, ?_, ?_⟩ <;>
    · unfold error_type_to_cli_error
      split_ifs <;> rfl

/-- C9 (code evidence): an unknown `--backend` value makes the client exit
with code 1, but the diagnostic it prints is exactly `Error: unknown` —
`parse_backend` discards the computed list of available backends, so the
diagnostic names neither `dummy` nor `llama`. -/
theorem backend_arg_diagnostic :
    parse_backend "bogus" = .error .unknown ∧
    backend_arg_outcome "bogus" = some ("Error: unknown", 1) ∧
    available_backends = ["dummy", "llama"] ∧
    strContains "Error: unknown" "dummy" = false ∧
    strContains "Error: unknown" "llama" = false := by
  have hp : parse_backend "bogus" = .error .unknown := by
    unfold parse_backend
    rw [if_neg (by decide), if_neg (by decide)]
  refine ⟨hp, ?_, rfl, by decide, by decide⟩
  unfold backend_arg_outcome
  rw [hp]
  rfl

/-- C6: post-terminal idempotence of `next_token`.  For the dummy backend,
a call returning `none` leaves the state empty, and every further call
returns `none` with the state unchanged.  For the llama backend, under the
channel invariant of an unstopped generation (`llamaInv`), a call returning
`Ok(None)` leaves the reader in a terminal state, and from a terminal state
every call returns `Ok(None)` and stays terminal — so after the first
`none`, all calls before the next `prompt` return `none`. -/
theorem next_token_post_terminal :
    (∀ b b' : DummyBackend, b.next_token = (none, b') → b'.next_token = (none, b')) ∧
    (∀ g g' : LlamaGen, llamaInv g → g.next_token = some (none, g') →
      llamaTerminal g') ∧
    (∀ g : LlamaGen, llamaTerminal g →
      ∃ g', g.next_token = some (none, g') ∧ llamaTerminal g') := by
  refine ⟨?_, ?_, ?_⟩
  · intro b b' h
    rcases b with ⟨tokens⟩
    cases tokens with
    | nil =>
      simp only [DummyBackend.next_token, Prod.mk.injEq, true_and] at h
      rw [← h]
      rfl
    | cons t rest =>
      simp [DummyBackend.next_token] at h
  · intro g g' hinv h
    rcases g with ⟨r⟩
    rcases g' with ⟨r'⟩
    rcases hinv with hnone | ⟨chunks, j, k, hkj, hjlen, hrec⟩
    · simp only at hnone
      subst hnone
      simp only [LlamaGen.next_token, Option.some.injEq, Prod.mk.injEq,
        LlamaGen.mk.injEq, true_and] at h
      subst h
      exact Or.inl rfl
    · simp only [Option.some.injEq] at hrec
      subst hrec
      cases hs : ((worker_messages chunks).take j).drop k with
      | nil =>
        rw [hs] at h
        by_cases hj : j = chunks.length + 1
        · simp only [hj] at h
          simp only [LlamaGen.next_token, decide_eq_true_eq, if_true,
            Option.some.injEq, Prod.mk.injEq, LlamaGen.mk.injEq, true_and,
            if_pos rfl] at h
          subst h
          exact Or.inl rfl
        · simp [LlamaGen.next_token, hj] at h
      | cons m rest =>
        rw [hs] at h
        simp only [LlamaGen.next_token, Option.some.injEq, Prod.mk.injEq,
          LlamaGen.mk.injEq] at h
        obtain ⟨hm, hg'⟩ := h
        subst hm
        subst hg'
        have hklt : k < (((worker_messages chunks).take j)).length := by
          by_contra hle
          push_neg at hle
          rw [List.drop_eq_nil_of_le hle] at hs
          exact absurd hs (by simp)
        have hfull : (worker_messages chunks).length = chunks.length + 1 := by
          simp [worker_messages]
        have hkfull : k < (worker_messages chunks).length := by
          simp only [List.length_take] at hklt
          omega
        rw [List.drop_eq_getElem_cons hklt] at hs
        injection hs with hhead htail
        rw [List.getElem_take] at hhead
        have hkeq : k = chunks.length := by
          by_contra hne
          have hklen : k < chunks.length := by omega
          simp only [worker_messages] at hhead
          rw [List.getElem_append_left (by simpa using hklen)] at hhead
          simp at hhead
        have hkj' : k < j := by
          simp only [List.length_take] at hklt
          omega
        have hjeq : j = chunks.length + 1 := by omega
        have htake : (worker_messages chunks).take j = worker_messages chunks := by
          rw [hjeq, ← hfull, List.take_length]
        have hrest : rest = [] := by
          rw [← htail, htake, List.drop_eq_nil_of_le (by omega)]
        right
        simp [hrest, hjeq]
  · intro g hterm
    rcases hterm with hnone | hdone
    · rcases g with ⟨r⟩
      simp only at hnone
      subst hnone
      exact ⟨⟨none⟩, rfl, Or.inl rfl⟩
    · rcases g with ⟨r⟩
      simp only at hdone
      subst hdone
      exact ⟨⟨none⟩, rfl, Or.inl rfl⟩

/-- C6 witness: concrete instances — the empty dummy backend, a drained
llama channel holding only the terminal marker, and a terminal llama
state. -/
theorem next_token_post_terminal_witness :
    DummyBackend.next_token ⟨[]⟩ = (none, ⟨[]⟩) ∧
    llamaTerminal ⟨some ⟨[], true⟩⟩ ∧
    ∃ g', LlamaGen.next_token ⟨some ⟨[], true⟩⟩ = some (none, g') ∧
      llamaTerminal g' :=
  ⟨next_token_post_terminal.1 ⟨[]⟩ ⟨[]⟩ rfl,
   next_token_post_terminal.2.1 ⟨some ⟨[none], true⟩⟩ ⟨some ⟨[], true⟩⟩
     (Or.inr ⟨[], 1, 0, Nat.zero_le _, by omega, by rfl⟩) rfl,
   next_token_post_terminal.2.2 ⟨some ⟨[], true⟩⟩ (Or.inr rfl)⟩

/-- Helper for C8: if every retry attempt fails with `NotFound` or
`ConnectionRefused`, the retry loop runs until the 5-second deadline and
yields `timeout`. -/
theorem retry_loop_all_fail_timeout (retry : Nat → ConnectResult)
    (hfail : ∀ k, retry k = .errNotFound ∨ retry k = .errConnectionRefused) :
    ∀ k, retry_loop retry k = .timeout := by
  have key : ∀ m k, connect_timeout_ms - retry_sleep_ms * k ≤ m →
      retry_loop retry k = .timeout := by
    intro m
    induction m with
    | zero =>
      intro k hk
      rw [retry_loop]
      rw [dif_pos (by omega)]
    | succ m ih =>
      intro k hk
      rw [retry_loop]
      by_cases hd : retry_sleep_ms * k ≥ connect_timeout_ms
      · rw [dif_pos hd]
      · rw [dif_neg hd]
        rcases hfail k with hf | hf <;>
          · rw [hf]
            exact ih (k + 1) (by
              simp only [retry_sleep_ms, connect_timeout_ms] at *
              omega)
  intro k
  exact key (connect_timeout_ms - retry_sleep_ms * k) k le_rfl

/-- C8: in the client's connect phase, a successful first connect returns
the stream without spawning; a first failure of kind `NotFound` or
`ConnectionRefused` spawns the daemon binary — resolved as the sibling
`threadrunner-daemon` of the client executable — and enters the 100 ms
retry loop; a first failure of any other kind is returned immediately as an
`Io` error without spawning; and if every retry before the 5-second
deadline fails with `NotFound` or `ConnectionRefused` (no retry succeeds),
the result is `timeout`. -/
theorem connect_or_spawn_spec (retry : Nat → ConnectResult) (s : String) :
    connect_or_spawn .ok retry = (.connected 0, false) ∧
    (connect_or_spawn .errNotFound retry).2 = true ∧
    (connect_or_spawn .errConnectionRefused retry).2 = true ∧
    connect_or_spawn (.errOther s) retry = (.ioError, false) ∧
    ((∀ k, retry k = .errNotFound ∨ retry k = .errConnectionRefused) →
      (connect_or_spawn .errNotFound retry).1 = .timeout ∧
      (connect_or_spawn .errConnectionRefused retry).1 = .timeout) ∧
    (∀ (dir : List String) (name : String),
      daemon_exe (dir ++ [name]) = .ok (dir ++ ["threadrunner-daemon"])) := by
  refine ⟨rfl, rfl, rfl, rfl, fun hfail => ?_, fun dir name => ?_⟩
  · exact ⟨retry_loop_all_fail_timeout retry hfail 0,
      retry_loop_all_fail_timeout retry hfail 0⟩
  · unfold daemon_exe
    rw [if_neg (by simp)]
    simp

/-- C8 witness: with every attempt failing `ConnectionRefused`, the first
failure spawns the daemon and the phase ends in `timeout`; a succeeding
first attempt connects without spawning. -/
theorem connect_or_spawn_spec_witness :
    (connect_or_spawn .errConnectionRefused (fun _ => .errConnectionRefused)).1 =
      .timeout ∧
    connect_or_spawn .ok (fun _ => .errConnectionRefused) = (.connected 0, false) ∧
    daemon_exe (["usr", "bin"] ++ ["threadrunner"]) =
      .ok (["usr", "bin"] ++ ["threadrunner-daemon"]) :=
  ⟨((connect_or_spawn_spec (fun _ => .errConnectionRefused) "x").2.2.2.2.1
      (fun _ => Or.inr rfl)).2,
   (connect_or_spawn_spec (fun _ => .errConnectionRefused) "x").1,
   (connect_or_spawn_spec (fun _ => .errConnectionRefused) "x").2.2.2.2.2
     ["usr", "bin"] "threadrunner"⟩

/-- C10: once `BoxedModelBackend::unload` has returned `Ok(())`, the slot
is empty: `prompt` and `next_token` then fail with
`"Backend has been unloaded"` without invoking the inner backend (empty
call trace), and a second `unload` returns `Ok(())` again with no inner
call; dropping a wrapper whose slot is still full invokes the inner unload
exactly once, while dropping an emptied wrapper invokes nothing. -/
theorem boxed_backend_unload_spec {σ : Type} (ops : InnerOps σ)
    (b b' : BoxedModelBackend σ) (calls : List InnerCall)
    (h : b.unloadB ops = (.ok (), b', calls)) :
    (∀ t, b'.promptB ops t = (.error "Backend has been unloaded", b', [])) ∧
    b'.next_tokenB ops = (.error "Backend has been unloaded", b', []) ∧
    b'.unloadB ops = (.ok (), b', []) ∧
    (∀ s : σ, (BoxedModelBackend.mk (some s)).dropB = [.unloadCall]) ∧
    (BoxedModelBackend.mk (σ := σ) none).dropB = [] := by
  have hb' : b'.inner = none := by
    rcases b with ⟨inner⟩
    cases inner with
    | none =>
      simp only [BoxedModelBackend.unloadB, Prod.mk.injEq] at h
      rw [← h.2.1]
    | some s =>
      simp only [BoxedModelBackend.unloadB] at h
      cases hu : ops.unloadOp s with
      | ok s' =>
        rw [hu] at h
        simp only [Prod.mk.injEq] at h
        rw [← h.2.1]
      | error e =>
        rw [hu] at h
        simp at h
  rcases b' with ⟨inner'⟩
  simp only at hb'
  subst hb'
  exact ⟨fun t => rfl, rfl, rfl, fun s => rfl, rfl⟩

/-- C10 witness: a trivial inner backend over `Unit`, explicitly unloaded,
then re-prompted. -/
theorem boxed_backend_unload_spec_witness :
    (BoxedModelBackend.mk (σ := Unit) none).promptB
      ⟨fun s _ => .ok s, fun s => .ok (none, s), fun s => .ok s⟩ "x" =
      (.error "Backend has been unloaded", ⟨none⟩, []) :=
  (boxed_backend_unload_spec
    ⟨fun s _ => .ok s, fun s => .ok (none, s), fun s => .ok s⟩
    ⟨some ()⟩ ⟨none⟩ [.unloadCall] rfl).1 "x"
